import Mathlib

/-!
Verification development for the ecogrid repository: a shallow embedding of
the backend's data model (core/models), the UI snapshot serializer
(backend/logic/ui_tree_snapshot.py), the capacity initializer
(backend/logic/capacity_analysis.py), the stateful facade
(backend/api/backend_facade.py) and the HTTP mutation dispatch (app.py).
Numeric (Python float) values are modelled as exact rationals; Python's
`None` becomes `Option`. Dictionaries keyed by id become association lists
in insertion order.

Components of the repository that are not part of the staged sources
(logic/bplus_index.py, logic/logical_graph_service.py,
physical/device_simulation.py, physical/device_catalog.py,
api/logical_backend_api.py) are modelled from the specification; each such
definition carries a doc comment starting with "Modelled from the spec".
-/

set_option allowUnsafeReducibility true

attribute [semireducible] Rat.add Rat.mul Rat.sub Rat.inv Rat.ofScientific

namespace EcoGrid

/- ------------------------------------------------------------------ -/
/- Data model: core/models.py (NodeType, Node, EdgeType, Edge),       -/
/- core/graph_core.py (PowerGridGraph), physical/device_model.py.     -/
/- ------------------------------------------------------------------ -/

/-- `NodeType` of core/models.py: the four node kinds of the grid. -/
inductive NodeType where
  | generationPlant
  | transmissionSubstation
  | distributionSubstation
  | consumerPoint
deriving DecidableEq

/-- `EdgeType` of core/models.py. -/
inductive EdgeType where
  | transmissionSegment
  | mvSegment
  | lvDistributionSegment
deriving DecidableEq

/-- A grid node (core/models.py `Node`): scalar attributes as used by the
snapshot serializer and the capacity initializer.  `capacity` and
`current_load` are nullable (`Option`). -/
structure Node where
  id : String
  node_type : NodeType
  position_x : Option ℚ
  position_y : Option ℚ
  cluster_id : Option String
  nominal_voltage : Option ℚ
  capacity : Option ℚ
  current_load : Option ℚ
deriving DecidableEq

/-- A physical edge (core/models.py `Edge`). -/
structure Edge where
  id : String
  edge_type : EdgeType
  from_node_id : String
  to_node_id : String
  length : ℚ
deriving DecidableEq

/-- `PowerGridGraph` of core/graph_core.py: node set keyed by id plus the
edge set, with O(1) node lookup.  The dict becomes an association list in
insertion order; lookup is the first node with the given id. -/
structure PowerGridGraph where
  nodes : List Node
  edges : List Edge
deriving DecidableEq

/-- `PowerGridGraph.get_node`: id lookup, `None` when absent. -/
def PowerGridGraph.get_node (g : PowerGridGraph) (nid : String) : Option Node :=
  g.nodes.find? (fun nd => nd.id = nid)

/-- `DeviceType` of physical/device_model.py (catalog entries named in the
spec and the tests: TV, Fridge, Shower, Generic). -/
inductive DeviceType where
  | tv
  | fridge
  | shower
  | generic
deriving DecidableEq

/-- `IoTDevice` of physical/device_model.py. -/
structure IoTDevice where
  id : String
  name : String
  device_type : DeviceType
  avg_power : ℚ
  current_power : ℚ
deriving DecidableEq

/-- The name of a device type, as `DeviceType.name` renders it in the
serialized device table. -/
def DeviceType.typeName : DeviceType → String
  | .tv => "TV"
  | .fridge => "FRIDGE"
  | .shower => "SHOWER"
  | .generic => "GENERIC"

/- ------------------------------------------------------------------ -/
/- backend/logic/ui_tree_snapshot.py                                  -/
/- ------------------------------------------------------------------ -/

/-- `_compute_status` of ui_tree_snapshot.py: UNSUPPLIED only for a
ConsumerPoint whose id is in the unsupplied set; then NORMAL when capacity
or load is null or capacity is non-positive; otherwise classify the
load/capacity ratio (strictly below 0.8 NORMAL, up to 1.0 WARNING, above
OVERLOADED). -/
def compute_status (node : Node) (unsupplied_ids : List String) : String :=
  if node.node_type = NodeType.consumerPoint ∧ node.id ∈ unsupplied_ids then
    "UNSUPPLIED"
  else
    match node.capacity, node.current_load with
    | some capacity, some load =>
        if capacity ≤ 0 then "NORMAL"
        else
          let ratio := load / capacity
          if ratio < 0.8 then "NORMAL"
          else if ratio ≤ 1 then "WARNING"
          else "OVERLOADED"
    | _, _ => "NORMAL"

/-- `_translate_node_type` of ui_tree_snapshot.py. -/
def translate_node_type : NodeType → String
  | .generationPlant => "Usina Geradora"
  | .transmissionSubstation => "Subestação de Transmissão"
  | .distributionSubstation => "Subestação de Distribuição"
  | .consumerPoint => "Consumidor"

/-- `_determine_network_type` of ui_tree_snapshot.py: null capacity is
"Desconhecido"; capacity up to the float-tolerance threshold 13.001 is
"Monofásica"; above it "Trifásica". -/
def determine_network_type (capacity : Option ℚ) : String :=
  match capacity with
  | none => "Desconhecido"
  | some c => if c ≤ 13.001 then "Monofásica" else "Trifásica"

/-- The integer numerator (in thousandths) of Python's `round(x, 3)`:
scale by 1000 and round to the nearest integer, ties to the even integer
(banker's rounding). -/
def round3Int (q : ℚ) : ℤ :=
  let scaled : ℚ := q * 1000
  let fl : ℤ := ⌊scaled⌋
  let frac : ℚ := scaled - fl
  if frac < 1/2 then fl
  else if 1/2 < frac then fl + 1
  else if 2 ∣ fl then fl else fl + 1

/-- Python's `round(x, 3)` on exact rationals. -/
def round3 (q : ℚ) : ℚ :=
  (round3Int q : ℚ) / 1000

/-- `_round_val` of ui_tree_snapshot.py: round to 3 decimals, null stays
null. -/
def round_val (val : Option ℚ) : Option ℚ :=
  val.map round3

/-- One flat node entry of the UI tree, the dict built by
`_build_tree_entry`. -/
structure TreeEntry where
  id : String
  parent_id : Option String
  node_type : String
  position_x : Option ℚ
  position_y : Option ℚ
  cluster_id : Option String
  nominal_voltage : Option ℚ
  capacity : Option ℚ
  current_load : Option ℚ
  status : String
  network_type : String
deriving DecidableEq

/-- `_build_tree_entry` of ui_tree_snapshot.py: translation, network type,
rounding of every float field, status. -/
def build_tree_entry (node : Node) (parent_id : Option String)
    (unsupplied_ids : List String) : TreeEntry :=
  { id := node.id
    parent_id := parent_id
    node_type := translate_node_type node.node_type
    position_x := round_val node.position_x
    position_y := round_val node.position_y
    cluster_id := node.cluster_id
    nominal_voltage := round_val node.nominal_voltage
    capacity := round_val node.capacity
    current_load := round_val node.current_load
    status := compute_status node unsupplied_ids
    network_type := determine_network_type node.capacity }

/-- A serialized device dict of `_serialize_devices`. -/
structure DeviceEntry where
  id : String
  name : String
  device_type : String
  avg_power : ℚ
  current_power : ℚ
deriving DecidableEq

/-- Serialization of one device inside `_serialize_devices`. -/
def serialize_device (dev : IoTDevice) : DeviceEntry :=
  { id := dev.id
    name := dev.name
    device_type := dev.device_type.typeName
    avg_power := round3 dev.avg_power
    current_power := round3 dev.current_power }

/-- `_serialize_devices` of ui_tree_snapshot.py: consumers with an empty
device list are skipped (`if not devices: continue`); the rest keep their
order, each device serialized with rounded powers. -/
def serialize_devices (devices_by_node : List (String × List IoTDevice)) :
    List (String × List DeviceEntry) :=
  devices_by_node.filterMap (fun pr =>
    if pr.2 = [] then none else some (pr.1, pr.2.map serialize_device))

/- ------------------------------------------------------------------ -/
/- HierarchyIndex (logic/bplus_index.py is not among the staged        -/
/- sources): modelled from the spec as a forest of rose trees.         -/
/- ------------------------------------------------------------------ -/

mutual
/-- Modelled from the spec: one logical-hierarchy node of the
HierarchyIndex (logic/bplus_index.py is not under the staged sources):
an id and the forest of its children. -/
inductive HTree where
  | mk (id : String) (children : Forest)
/-- Modelled from the spec: a forest of hierarchy trees, the roots kept
in registration order. -/
inductive Forest where
  | nil
  | cons (t : HTree) (f : Forest)
end

/-- The id at the root of a hierarchy tree. -/
def HTree.rootId : HTree → String
  | .mk i _ => i

mutual
/-- Modelled from the spec: `iterPreorder` restricted to one tree — a
deterministic depth-first, parent-before-children traversal. -/
def preorderT : HTree → List String
  | .mk i f => i :: preorderF f
/-- Modelled from the spec: `iterPreorder()` of the HierarchyIndex,
starting at the roots in registration order. -/
def preorderF : Forest → List String
  | .nil => []
  | .cons t f => preorderT t ++ preorderF f
end

/-- The root ids of a forest, in order. -/
def rootsF : Forest → List String
  | .nil => []
  | .cons t f => t.rootId :: rootsF f

mutual
/-- All (child id, parent id) pairs of the parent relation inside one
tree. -/
def pairsT : HTree → List (String × String)
  | .mk i f => (rootsF f).map (fun c => (c, i)) ++ pairsF f
/-- All (child id, parent id) pairs of the parent relation of a forest. -/
def pairsF : Forest → List (String × String)
  | .nil => []
  | .cons t f => pairsT t ++ pairsF f
end

mutual
/-- The child ids recorded for `x` inside one tree (`getChildren`). -/
def childrenT : HTree → String → List String
  | .mk i f, x => if i = x then rootsF f else childrenF f x
/-- Modelled from the spec: `getChildren(x)` over the forest. -/
def childrenF : Forest → String → List String
  | .nil, _ => []
  | .cons t f, x => childrenT t x ++ childrenF f x
end

/-- Modelled from the spec: `getParent(x)` — the parent recorded for `x`,
`none` for roots and unregistered ids. -/
def parentF (f : Forest) (x : String) : Option String :=
  ((pairsF f).find? (fun pr => pr.1 = x)).map (fun pr => pr.2)

mutual
/-- Attach `c` as a new first child of the node labelled `p` in a tree. -/
def attachT (p : String) (c : HTree) : HTree → HTree
  | .mk i f => if i = p then .mk i (.cons c f) else .mk i (attachF p c f)
/-- Attach `c` as a new first child of the node labelled `p`, wherever it
occurs in the forest. -/
def attachF (p : String) (c : HTree) : Forest → Forest
  | .nil => .nil
  | .cons t f => .cons (attachT p c t) (attachF p c f)
end

/-- "`a` appears strictly before `b`" in a list: the list splits at an
occurrence of `a` with `b` somewhere in the remainder. -/
def AppearsBefore (xs : List String) (a b : String) : Prop :=
  ∃ l₁ l₂, xs = l₁ ++ a :: l₂ ∧ b ∈ l₂

theorem appearsBefore_cons {xs : List String} {a b : String} (y : String)
    (h : AppearsBefore xs a b) : AppearsBefore (y :: xs) a b := by
  obtain ⟨l₁, l₂, hx, hb⟩ := h
  exact ⟨y :: l₁, l₂, by simp [hx], hb⟩

theorem appearsBefore_append_left {xs : List String} {a b : String}
    (ys : List String) (h : AppearsBefore xs a b) :
    AppearsBefore (ys ++ xs) a b := by
  induction ys with
  | nil => simpa using h
  | cons y ys ih => exact appearsBefore_cons y ih

theorem appearsBefore_append_right {xs : List String} {a b : String}
    (ys : List String) (h : AppearsBefore xs a b) :
    AppearsBefore (xs ++ ys) a b := by
  obtain ⟨l₁, l₂, hx, hb⟩ := h
  exact ⟨l₁, l₂ ++ ys, by simp [hx], by simp [hb]⟩

mutual
/-- A root id of a forest is among the forest's preorder ids. -/
theorem rootsF_subset_preorderF :
    ∀ (f : Forest) (c : String), c ∈ rootsF f → c ∈ preorderF f
  | .cons t f, c, h => by
    rcases List.mem_cons.mp (by simpa [rootsF] using h) with h1 | h2
    · cases t with
      | mk i g =>
        simp [preorderF, preorderT, HTree.rootId] at h1 ⊢
        exact Or.inl h1
    · exact by simp [preorderF]; exact Or.inr (rootsF_subset_preorderF f c h2)
end

mutual
/-- Parent-before-child inside one tree: for every (child, parent) pair of
the tree, the parent id appears strictly before the child id in the
tree's preorder listing. -/
theorem pairsT_appearsBefore :
    ∀ (t : HTree) (c p : String), (c, p) ∈ pairsT t →
      AppearsBefore (preorderT t) p c
  | .mk i f, c, p, h => by
    rw [pairsT] at h
    rcases List.mem_append.mp h with h1 | h2
    · obtain ⟨x, hx, hcp⟩ := List.mem_map.mp h1
      obtain ⟨rfl, rfl⟩ : c = x ∧ p = i := by
        constructor <;> (cases hcp; rfl)
      exact ⟨[], preorderF f, by simp [preorderT],
        rootsF_subset_preorderF f c hx⟩
    · have := pairsF_appearsBefore f c p h2
      rw [preorderT]
      exact appearsBefore_cons i this
/-- Parent-before-child over a forest: for every (child, parent) pair, the
parent id appears strictly before the child id in `preorderF`. -/
theorem pairsF_appearsBefore :
    ∀ (f : Forest) (c p : String), (c, p) ∈ pairsF f →
      AppearsBefore (preorderF f) p c
  | .cons t f, c, p, h => by
    rw [pairsF] at h
    rcases List.mem_append.mp h with h1 | h2
    · exact appearsBefore_append_right (preorderF f) (pairsT_appearsBefore t c p h1)
    · exact appearsBefore_append_left (preorderT t) (pairsF_appearsBefore f c p h2)
end

/- ------------------------------------------------------------------ -/
/- Graph mutation helpers (attribute updates on the node with a given  -/
/- id, as the Python code mutates Node objects in place).              -/
/- ------------------------------------------------------------------ -/

/-- Apply `fn` to every node whose id is `nid` (at most one in a
well-formed graph): the in-place mutation of a looked-up Node object. -/
def PowerGridGraph.updateNode (g : PowerGridGraph) (nid : String)
    (fn : Node → Node) : PowerGridGraph :=
  { g with nodes := g.nodes.map (fun nd => if nd.id = nid then fn nd else nd) }

/-- `node.capacity = c` on the node with id `nid`. -/
def PowerGridGraph.setCapacity (g : PowerGridGraph) (nid : String)
    (c : Option ℚ) : PowerGridGraph :=
  g.updateNode nid (fun nd => { nd with capacity := c })

/-- `node.current_load += delta` on the node with id `nid` (a null load
counts as 0, matching float defaults). -/
def PowerGridGraph.addLoad (g : PowerGridGraph) (nid : String) (delta : ℚ) :
    PowerGridGraph :=
  g.updateNode nid (fun nd =>
    { nd with current_load := some (nd.current_load.getD 0 + delta) })

theorem find?_map_updIf_ne (nds : List Node) (nid : String)
    (fn : Node → Node) (hf : ∀ nd, (fn nd).id = nd.id) (j : String)
    (hj : j ≠ nid) :
    (nds.map (fun nd => if nd.id = nid then fn nd else nd)).find?
        (fun nd => nd.id = j)
      = nds.find? (fun nd => nd.id = j) := by
  induction nds with
  | nil => rfl
  | cons nd nds ih =>
    have hid : (if nd.id = nid then fn nd else nd).id = nd.id := by
      by_cases h : nd.id = nid <;> simp [h, hf]
    by_cases hj2 : nd.id = j
    · have hne : ¬ nd.id = nid := fun e => hj (by rw [← hj2]; exact e)
      simp only [List.map_cons]
      rw [List.find?_cons_of_pos _
          (by show decide ((if nd.id = nid then fn nd else nd).id = j) = true
              rw [hid]; simp [hj2]),
        List.find?_cons_of_pos _ (by simp [hj2])]
      simp [hne]
    · simp only [List.map_cons]
      rw [List.find?_cons_of_neg _
          (by show ¬ decide ((if nd.id = nid then fn nd else nd).id = j) = true
              rw [hid]; simp [hj2]),
        List.find?_cons_of_neg _ (by simp [hj2])]
      exact ih

theorem find?_map_updIf_self (nds : List Node) (nid : String)
    (fn : Node → Node) (hf : ∀ nd, (fn nd).id = nd.id) :
    (nds.map (fun nd => if nd.id = nid then fn nd else nd)).find?
        (fun nd => nd.id = nid)
      = (nds.find? (fun nd => nd.id = nid)).map
          (fun nd => if nd.id = nid then fn nd else nd) := by
  induction nds with
  | nil => rfl
  | cons nd nds ih =>
    have hid : (if nd.id = nid then fn nd else nd).id = nd.id := by
      by_cases h : nd.id = nid <;> simp [h, hf]
    by_cases h1 : nd.id = nid
    · simp only [List.map_cons]
      rw [List.find?_cons_of_pos _
          (by show decide ((if nd.id = nid then fn nd else nd).id = nid) = true
              rw [hid]; simp [h1]),
        List.find?_cons_of_pos _ (by simp [h1])]
      simp
    · simp only [List.map_cons]
      rw [List.find?_cons_of_neg _
          (by show ¬ decide ((if nd.id = nid then fn nd else nd).id = nid) = true
              rw [hid]; simp [h1]),
        List.find?_cons_of_neg _ (by simp [h1])]
      exact ih

theorem get_node_updateNode_ne (g : PowerGridGraph) (nid : String)
    (fn : Node → Node) (hf : ∀ nd, (fn nd).id = nd.id) (j : String)
    (hj : j ≠ nid) : (g.updateNode nid fn).get_node j = g.get_node j :=
  find?_map_updIf_ne g.nodes nid fn hf j hj

theorem get_node_updateNode_self (g : PowerGridGraph) (nid : String)
    (fn : Node → Node) (hf : ∀ nd, (fn nd).id = nd.id) :
    (g.updateNode nid fn).get_node nid = (g.get_node nid).map fn := by
  have h := find?_map_updIf_self g.nodes nid fn hf
  unfold PowerGridGraph.updateNode PowerGridGraph.get_node
  rw [h]
  cases hfind : g.nodes.find? (fun nd => nd.id = nid) with
  | none => rfl
  | some nd =>
    have : nd.id = nid := by simpa using List.find?_some hfind
    simp [this]

/-- A looked-up node carries the id it was looked up by. -/
theorem get_node_id {g : PowerGridGraph} {nid : String} {nd : Node}
    (h : g.get_node nid = some nd) : nd.id = nid := by
  have := List.find?_some h
  simpa using this

/-- The id/type skeleton seen through `get_node`: `updateNode` with an
id- and type-preserving function changes no node's id or type, and
preserves presence. -/
theorem skeleton_updateNode (g : PowerGridGraph) (nid : String)
    (fn : Node → Node) (hf : ∀ nd, (fn nd).id = nd.id)
    (ht : ∀ nd, (fn nd).node_type = nd.node_type) (j : String) :
    ((g.updateNode nid fn).get_node j).map (fun nd => (nd.id, nd.node_type))
      = (g.get_node j).map (fun nd => (nd.id, nd.node_type)) := by
  by_cases hj : j = nid
  · subst hj
    rw [get_node_updateNode_self g j fn hf]
    cases g.get_node j with
    | none => rfl
    | some nd => simp [hf nd, ht nd]
  · rw [get_node_updateNode_ne g nid fn hf j hj]

/- ------------------------------------------------------------------ -/
/- backend/logic/capacity_analysis.py                                  -/
/- ------------------------------------------------------------------ -/

/-- `total_consumers` of `initialize_capacities`: the number of
CONSUMER_POINT nodes in the graph. -/
def totalConsumers (g : PowerGridGraph) : Nat :=
  (g.nodes.filter (fun nd => nd.node_type = NodeType.consumerPoint)).length

/-- `num_clusters` of `initialize_capacities`: the number of
GENERATION_PLANT nodes, with the fallback to 1 when there is none. -/
def numClusters (g : PowerGridGraph) : Nat :=
  let raw := (g.nodes.filter (fun nd => nd.node_type = NodeType.generationPlant)).length
  if raw = 0 then 1 else raw

/-- `avg_consumers_per_cluster` of `initialize_capacities`. -/
def avgConsumersPerCluster (g : PowerGridGraph) : ℚ :=
  (totalConsumers g : ℚ) / (numClusters g : ℚ)

/-- The contribution of one child id to `sum_children_capacity` in
`initialize_capacities`: its capacity when the child exists and has one,
otherwise 0 (`if child and child.capacity is not None`). -/
def childCapTerm (g : PowerGridGraph) (cid : String) : ℚ :=
  match g.get_node cid with
  | some child => child.capacity.getD 0
  | none => 0

/-- `sum_children_capacity` of `initialize_capacities` for the node `nid`. -/
def childCapSum (g : PowerGridGraph) (F : Forest) (nid : String) : ℚ :=
  ((childrenF F nid).map (childCapTerm g)).sum

/-- The loop body of `initialize_capacities` for one id of the bottom-up
order: skip ids without a node; null out a consumer's capacity; otherwise
set capacity to `13 * max(sum(child capacities) + child_count,
avg_consumers_per_cluster + 1)` (a missing child or a null child capacity
contributes 0 to the sum but still counts in `child_count`). -/
def capacityStep (avg : ℚ) (F : Forest) (g : PowerGridGraph) (nid : String) :
    PowerGridGraph :=
  match g.get_node nid with
  | none => g
  | some node =>
    if node.node_type = NodeType.consumerPoint then g.setCapacity nid none
    else
      let children_ids := childrenF F nid
      let base_term : ℚ := childCapSum g F nid + (children_ids.length : ℚ)
      let cluster_term : ℚ := avg + 1
      g.setCapacity nid (some (13 * max base_term cluster_term))

/-- `initialize_capacities(graph, index)` of capacity_analysis.py: one pass
over `reversed(list(index.iter_preorder()))` applying `capacityStep` with
the cluster average computed from the initial graph. -/
def initialize_capacities (g : PowerGridGraph) (F : Forest) : PowerGridGraph :=
  (List.reverse (preorderF F)).foldl (capacityStep (avgConsumersPerCluster g) F) g

/- ------------------------------------------------------------------ -/
/- The bottom-up pass characterized: every non-consumer node ends with  -/
/- capacity 13 * max(children's final capacities + child count,         -/
/- avg + 1); every consumer ends with null capacity.                    -/
/- ------------------------------------------------------------------ -/

theorem capacityStep_get_ne (avg : ℚ) (F : Forest) (g : PowerGridGraph)
    (nid j : String) (hj : j ≠ nid) :
    (capacityStep avg F g nid).get_node j = g.get_node j := by
  unfold capacityStep
  cases hg : g.get_node nid with
  | none => rfl
  | some node =>
    by_cases hc : node.node_type = NodeType.consumerPoint
    · simp only [hc, if_pos]
      exact get_node_updateNode_ne g nid
        (fun nd => { nd with capacity := none }) (fun _ => rfl) j hj
    · simp only [hc, if_neg, if_false]
      exact get_node_updateNode_ne g nid
        (fun nd => { nd with capacity := some (13 * max
          (childCapSum g F nid + ((childrenF F nid).length : ℚ))
          (avg + 1)) }) (fun _ => rfl) j hj

theorem foldl_capacityStep_get_ne (avg : ℚ) (F : Forest) :
    ∀ (l : List String) (g : PowerGridGraph) (j : String), j ∉ l →
      (l.foldl (capacityStep avg F) g).get_node j = g.get_node j := by
  intro l
  induction l with
  | nil => intro g j _; rfl
  | cons x xs ih =>
    intro g j hj
    have hjx : j ≠ x := fun e => hj (e ▸ List.mem_cons_self x xs)
    have hjxs : j ∉ xs := fun h => hj (List.mem_cons_of_mem x h)
    rw [List.foldl_cons, ih (capacityStep avg F g x) j hjxs,
      capacityStep_get_ne avg F g x j hjx]

/-- The bottom-up processing discipline satisfied by the reversed
preorder: wherever the list is split at `y`, none of `y`'s recorded
children is `y` itself or appears later. -/
def ChildrenNotAfter (F : Forest) (l : List String) : Prop :=
  ∀ a y b, l = a ++ y :: b → ∀ c ∈ childrenF F y, c ∉ y :: b

theorem childrenNotAfter_tail {F : Forest} {x : String} {xs : List String}
    (h : ChildrenNotAfter F (x :: xs)) : ChildrenNotAfter F xs :=
  fun a y b heq => h (x :: a) y b (by rw [heq]; rfl)

theorem childrenNotAfter_head {F : Forest} {x : String} {xs : List String}
    (h : ChildrenNotAfter F (x :: xs)) : ∀ c ∈ childrenF F x, c ∉ x :: xs :=
  h [] x xs rfl

theorem sum_map_congr {α : Type} (l : List α) (f g : α → ℚ)
    (h : ∀ c ∈ l, f c = g c) : (l.map f).sum = (l.map g).sum := by
  induction l with
  | nil => rfl
  | cons x xs ih =>
    simp only [List.map_cons, List.sum_cons]
    rw [h x (List.mem_cons_self x xs), ih (fun c hc => h c (List.mem_cons_of_mem x hc))]

/-- The rule `initialize_capacities` leaves in force at one node, stated
against a fixed final graph. -/
def CapSpec (avg : ℚ) (F : Forest) (gfin : PowerGridGraph) (nid : String)
    (node : Node) : Prop :=
  (node.node_type = NodeType.consumerPoint → node.capacity = none) ∧
  (node.node_type ≠ NodeType.consumerPoint →
    node.capacity = some (13 * max
      (childCapSum gfin F nid + ((childrenF F nid).length : ℚ))
      (avg + 1)))

theorem foldl_capacityStep_spec (avg : ℚ) (F : Forest) :
    ∀ (l : List String) (g : PowerGridGraph), l.Nodup → ChildrenNotAfter F l →
      ∀ nid, nid ∈ l → ∀ node,
        (l.foldl (capacityStep avg F) g).get_node nid = some node →
        CapSpec avg F (l.foldl (capacityStep avg F) g) nid node := by
  intro l
  induction l with
  | nil => intro g _ _ nid h; cases h
  | cons x xs ih =>
    intro g hnd hcna nid hmem node hget
    have hnd' : xs.Nodup := hnd.of_cons
    have hxnotin : x ∉ xs := (List.nodup_cons.mp hnd).1
    have hcna' : ChildrenNotAfter F xs := childrenNotAfter_tail hcna
    rw [List.foldl_cons] at hget ⊢
    rcases List.mem_cons.mp hmem with rfl | hmemxs
    · -- nid = x : its capacity was written by this step and never touched again
      have hstable :
          ((xs.foldl (capacityStep avg F) (capacityStep avg F g nid)).get_node nid)
            = (capacityStep avg F g nid).get_node nid :=
        foldl_capacityStep_get_ne avg F xs _ nid hxnotin
      cases hg : g.get_node nid with
      | none =>
        rw [hstable] at hget
        unfold capacityStep at hget
        rw [hg] at hget
        exact absurd (hg ▸ hget) (by simp)
      | some node₀ =>
        by_cases hc : node₀.node_type = NodeType.consumerPoint
        · have hstep : (capacityStep avg F g nid).get_node nid
              = some { node₀ with capacity := none } := by
            unfold capacityStep
            rw [hg]
            simp only [hc, if_pos]
            rw [PowerGridGraph.setCapacity,
              get_node_updateNode_self g nid
                (fun nd => { nd with capacity := none }) (fun _ => rfl), hg]
            simp [hc]
          rw [hstable, hstep] at hget
          cases hget
          exact ⟨fun _ => rfl, fun hne => absurd hc hne⟩
        · have hstep : (capacityStep avg F g nid).get_node nid
              = some { node₀ with capacity := some (13 * max
                  (childCapSum g F nid + ((childrenF F nid).length : ℚ))
                  (avg + 1)) } := by
            unfold capacityStep
            rw [hg]
            simp only [hc, if_neg, if_false]
            rw [PowerGridGraph.setCapacity,
              get_node_updateNode_self g nid
                (fun nd => { nd with capacity := some (13 * max
                  (childCapSum g F nid + ((childrenF F nid).length : ℚ))
                  (avg + 1)) }) (fun _ => rfl), hg]
            rfl
          rw [hstable, hstep] at hget
          cases hget
          have hchild : ∀ c ∈ childrenF F nid,
              childCapTerm (xs.foldl (capacityStep avg F) (capacityStep avg F g nid)) c
                = childCapTerm g c := by
            intro c hcmem
            have hnot := childrenNotAfter_head hcna c hcmem
            have hcne : c ≠ nid := fun e => hnot (e ▸ List.mem_cons_self nid xs)
            have hcxs : c ∉ xs := fun h => hnot (List.mem_cons_of_mem nid h)
            unfold childCapTerm
            rw [foldl_capacityStep_get_ne avg F xs _ c hcxs,
              capacityStep_get_ne avg F g nid c hcne]
          have hsum : childCapSum
              (xs.foldl (capacityStep avg F) (capacityStep avg F g nid)) F nid
                = childCapSum g F nid := by
            unfold childCapSum
            exact sum_map_congr _ _ _ hchild
          refine ⟨fun hcc => absurd hcc hc, fun _ => ?_⟩
          rw [hsum]
    · exact ih (capacityStep avg F g x) hnd' hcna' nid hmemxs node hget

/-- In a duplicate-free list a split at `y` is unique. -/
theorem nodup_split_unique {α : Type} :
    ∀ (u : List α) (v : List α) (u' v' : List α) (y : α),
      (u ++ y :: v).Nodup → u ++ y :: v = u' ++ y :: v' → u = u' ∧ v = v' := by
  intro u
  induction u with
  | nil =>
    intro v u' v' y hnd heq
    cases u' with
    | nil => simp at heq; exact ⟨rfl, heq⟩
    | cons z u'' =>
      simp only [List.nil_append, List.cons_append, List.cons.injEq] at heq
      obtain ⟨rfl, hv⟩ := heq
      have : y ∈ v := by rw [hv]; exact List.mem_append_right _ (List.mem_cons_self _ _)
      exact absurd this (List.nodup_cons.mp hnd).1
  | cons z u₂ ih =>
    intro v u' v' y hnd heq
    cases u' with
    | nil =>
      simp only [List.nil_append, List.cons_append, List.cons.injEq] at heq
      obtain ⟨hzy, hv⟩ := heq
      have hy : z ∈ u₂ ++ y :: v := by
        rw [hzy]; exact List.mem_append_right _ (List.mem_cons_self _ _)
      rw [List.cons_append] at hnd
      exact absurd hy (List.nodup_cons.mp hnd).1
    | cons z' u₂' =>
      simp only [List.cons_append, List.cons.injEq] at heq
      obtain ⟨rfl, heq₂⟩ := heq
      rw [List.cons_append] at hnd
      obtain ⟨hu, hv⟩ := ih v u₂' v' y (List.nodup_cons.mp hnd).2 heq₂
      exact ⟨by rw [hu], hv⟩

mutual
/-- A recorded child of `x` inside a tree yields a (child, x) pair of the
tree. -/
theorem childrenT_sub_pairsT :
    ∀ (t : HTree) (x c : String), c ∈ childrenT t x → (c, x) ∈ pairsT t
  | .mk i f, x, c, h => by
    rw [childrenT] at h
    rw [pairsT]
    by_cases hix : i = x
    · rw [if_pos hix] at h
      subst hix
      exact List.mem_append_left _ (List.mem_map.mpr ⟨c, h, rfl⟩)
    · rw [if_neg hix] at h
      exact List.mem_append_right _ (childrenF_sub_pairsF f x c h)
/-- A recorded child of `x` in a forest yields a (child, x) pair of the
forest. -/
theorem childrenF_sub_pairsF :
    ∀ (f : Forest) (x c : String), c ∈ childrenF f x → (c, x) ∈ pairsF f
  | .cons t f, x, c, h => by
    rw [childrenF] at h
    rw [pairsF]
    rcases List.mem_append.mp h with h1 | h2
    · exact List.mem_append_left _ (childrenT_sub_pairsT t x c h1)
    · exact List.mem_append_right _ (childrenF_sub_pairsF f x c h2)
end

/-- The reversed preorder of a duplicate-free forest satisfies the
bottom-up discipline: by the time an id is processed, every id recorded as
one of its children lies strictly earlier (has already been processed). -/
theorem childrenNotAfter_reverse_preorder (F : Forest)
    (hnd : (preorderF F).Nodup) :
    ChildrenNotAfter F (List.reverse (preorderF F)) := by
  intro a y b heq c hc hcmem
  have hpair : (c, y) ∈ pairsF F := childrenF_sub_pairsF F y c hc
  obtain ⟨l₁, l₂, hsplit, hcl₂⟩ := pairsF_appearsBefore F c y hpair
  have hrev : preorderF F = b.reverse ++ y :: a.reverse := by
    have := congrArg List.reverse heq
    simpa [List.reverse_append] using this
  have huniq : l₁ = b.reverse ∧ l₂ = a.reverse := by
    refine nodup_split_unique l₁ l₂ b.reverse a.reverse y ?_ ?_
    · rw [← hsplit]; exact hnd
    · rw [← hsplit, hrev]
  have hca : c ∈ a.reverse := huniq.2 ▸ hcl₂
  have hndsplit : (b.reverse ++ y :: a.reverse).Nodup := hrev ▸ hnd
  rcases List.mem_cons.mp hcmem with rfl | hcb
  · -- c = y would put y inside l₂, against Nodup
    have : c ∉ a.reverse := by
      have h2 := (List.nodup_append.mp hndsplit).2.1
      exact (List.nodup_cons.mp h2).1
    exact this hca
  · -- c in both halves of the split, against disjointness
    have hdisj := (List.nodup_append.mp hndsplit).2.2
    exact hdisj (List.mem_reverse.mpr hcb) (List.mem_cons_of_mem y hca)

mutual
/-- Locate the subtree rooted at `x` inside a tree. -/
def findT (x : String) : HTree → Option HTree
  | .mk i f => if i = x then some (.mk i f) else findF x f
/-- Locate the subtree rooted at `x` inside a forest. -/
def findF (x : String) : Forest → Option HTree
  | .nil => none
  | .cons t f =>
    match findT x t with
    | some r => some r
    | none => findF x f
end

mutual
/-- The ids of ConsumerPoint nodes in a tree (after the spec's wording for
the claimed capacity rule: a node's own id counts only if it is itself a
ConsumerPoint, children's sets are unioned). -/
def consumerIdsT (g : PowerGridGraph) : HTree → List String
  | .mk i f =>
    (if (g.get_node i).map Node.node_type = some NodeType.consumerPoint
     then [i] else []) ++ consumerIdsF g f
/-- The ids of ConsumerPoint nodes across a forest. -/
def consumerIdsF (g : PowerGridGraph) : Forest → List String
  | .nil => []
  | .cons t f => consumerIdsT g t ++ consumerIdsF g f
end

/-- The claimed (spec-side) unique-consumer count of the subtree rooted at
`nid`: the size of the union of consumer-id sets. -/
def claimUniqueConsumerCount (g : PowerGridGraph) (F : Forest)
    (nid : String) : Nat :=
  match findF nid F with
  | some t => (consumerIdsT g t).dedup.length
  | none => 0

/-- The capacity the claim asserts for every non-consumer node:
`max(1.0, 1.5 × unique consumer count in subtree)`.  This definition
follows the spec's words, to be compared against the source's
`initialize_capacities`. -/
def claimNonConsumerCapacity (g : PowerGridGraph) (F : Forest)
    (nid : String) : ℚ :=
  max 1 (1.5 * (claimUniqueConsumerCount g F nid : ℚ))

/-- A node with the given id and type and neutral remaining attributes,
for concrete scenarios. -/
def exNode (i : String) (ty : NodeType) : Node :=
  { id := i, node_type := ty, position_x := some 0, position_y := some 0,
    cluster_id := none, nominal_voltage := some 127, capacity := none,
    current_load := some 0 }

/-- The spec's own example hierarchy: a GenerationPlant over one
DistributionSubstation over two ConsumerPoints. -/
def exGraphC1 : PowerGridGraph :=
  { nodes := [exNode "g1" NodeType.generationPlant,
              exNode "s1" NodeType.distributionSubstation,
              exNode "c1" NodeType.consumerPoint,
              exNode "c2" NodeType.consumerPoint],
    edges := [] }

/-- The logical hierarchy of `exGraphC1`: g1 → s1 → \x7bc1, c2\x7d. -/
def exForestC1 : Forest :=
  .cons (.mk "g1" (.cons (.mk "s1"
    (.cons (.mk "c1" .nil) (.cons (.mk "c2" .nil) .nil))) .nil)) .nil

/-- C1 (counterexample): on the spec's own example hierarchy the code
gives the substation capacity 13 * max(0 + 2, 2/1 + 1) = 39.0, while the
claimed rule max(1.0, 1.5 × 2) gives 3.0, so the claim fails as stated. -/
theorem c1_counterexample :
    ((initialize_capacities exGraphC1 exForestC1).get_node "s1").map Node.capacity
        = some (some 39) ∧
    claimNonConsumerCapacity exGraphC1 exForestC1 "s1" = 3 ∧
    (39 : ℚ) ≠ 3 := by
  refine ⟨by decide, by decide, by norm_num⟩

/-- C1 (amended): after `initialize_capacities(graph, index)` runs over a
duplicate-free hierarchy, every registered ConsumerPoint has null
capacity, and every registered non-consumer node has capacity
`13 * max(sum of its children's final capacities + child count,
total_consumers / generation_plant_count + 1)` — not
`max(1.0, 1.5 × unique consumers)`. -/
theorem initialize_capacities_spec (g : PowerGridGraph) (F : Forest)
    (hnd : (preorderF F).Nodup) (nid : String) (hmem : nid ∈ preorderF F)
    (node : Node)
    (hget : (initialize_capacities g F).get_node nid = some node) :
    (node.node_type = NodeType.consumerPoint → node.capacity = none) ∧
    (node.node_type ≠ NodeType.consumerPoint →
      node.capacity = some (13 * max
        (childCapSum (initialize_capacities g F) F nid
          + ((childrenF F nid).length : ℚ))
        (avgConsumersPerCluster g + 1))) :=
  foldl_capacityStep_spec (avgConsumersPerCluster g) F
    (List.reverse (preorderF F)) g (List.nodup_reverse.mpr hnd)
    (childrenNotAfter_reverse_preorder F hnd) nid
    (List.mem_reverse.mpr hmem) node hget

/-- The substation of the example as `initialize_capacities` leaves it. -/
def exNodeS1after : Node :=
  { exNode "s1" NodeType.distributionSubstation with capacity := some 39 }

/-- Witness for the amended C1 theorem at the concrete example. -/
theorem initialize_capacities_spec_witness :
    (initialize_capacities exGraphC1 exForestC1).get_node "s1"
        = some exNodeS1after ∧
    ((exNodeS1after.node_type = NodeType.consumerPoint →
        exNodeS1after.capacity = none) ∧
     (exNodeS1after.node_type ≠ NodeType.consumerPoint →
        exNodeS1after.capacity = some (13 * max
          (childCapSum (initialize_capacities exGraphC1 exForestC1) exForestC1 "s1"
            + ((childrenF exForestC1 "s1").length : ℚ))
          (avgConsumersPerCluster exGraphC1 + 1)))) :=
  ⟨by decide,
   initialize_capacities_spec exGraphC1 exForestC1 (by decide) "s1" (by decide)
     exNodeS1after (by decide)⟩

/- ------------------------------------------------------------------ -/
/- Status and network-type classification (claims about                 -/
/- ui_tree_snapshot.py's pure helpers).                                 -/
/- ------------------------------------------------------------------ -/

/-- When capacity or load is null, or capacity is non-positive, the ratio
is never formed: the status falls back to NORMAL unless the
unsupplied-consumer branch fired first. -/
theorem compute_status_guard_normal (node : Node) (unsup : List String)
    (hnu : ¬ (node.node_type = NodeType.consumerPoint ∧ node.id ∈ unsup))
    (h : node.capacity = none ∨ node.current_load = none ∨
      ∃ c, node.capacity = some c ∧ c ≤ 0) :
    compute_status node unsup = "NORMAL" := by
  rcases h with h | h | ⟨c, hc, hc0⟩
  · cases hl : node.current_load <;> simp [compute_status, hnu, h, hl]
  · cases hcp : node.capacity <;> simp [compute_status, hnu, h, hcp]
  · cases hl : node.current_load with
    | none => simp [compute_status, hnu, hc, hl]
    | some l => simp [compute_status, hnu, hc, hl, hc0]

/-- A node in WARNING/OVERLOADED territory (positive capacity, both
fields present) classified by the code. -/
theorem compute_status_ratio (node : Node) (unsup : List String)
    (hnu : ¬ (node.node_type = NodeType.consumerPoint ∧ node.id ∈ unsup))
    (c l : ℚ) (hc : node.capacity = some c) (hl : node.current_load = some l)
    (h0 : 0 < c) :
    compute_status node unsup =
      (if l / c < 0.8 then "NORMAL"
       else if l / c ≤ 1 then "WARNING" else "OVERLOADED") := by
  have h0' : ¬ c ≤ 0 := not_le.mpr h0
  simp only [compute_status, hc, hl, if_neg hnu]
  rw [if_neg h0']

/-- A node for the exact-0.8 boundary: capacity 10.0, load 8.0. -/
def nodeRatioBoundary : Node :=
  { exNode "w1" NodeType.transmissionSubstation with
    capacity := some 10, current_load := some 8 }

/-- An overloaded non-consumer node whose id sits in the UnsuppliedSet. -/
def nodeUnsuppliedSub : Node :=
  { exNode "t1" NodeType.transmissionSubstation with
    capacity := some 1, current_load := some 2 }

/-- C3 (counterexample): a load/capacity ratio of exactly 0.8 is
classified WARNING (the code's NORMAL test is strict `< 0.8`), not NORMAL
as the claim states; and a non-consumer node whose id is in the
UnsuppliedSet is classified by its ratio (here OVERLOADED), not
UNSUPPLIED — the code's UNSUPPLIED branch requires a ConsumerPoint. -/
theorem c3_counterexample :
    compute_status nodeRatioBoundary [] = "WARNING" ∧
    "WARNING" ≠ "NORMAL" ∧
    compute_status nodeUnsuppliedSub ["t1"] = "OVERLOADED" ∧
    "OVERLOADED" ≠ "UNSUPPLIED" := by
  refine ⟨by decide, by decide, by decide, by decide⟩

/-- C3 (amended): status is UNSUPPLIED exactly for a ConsumerPoint whose
id is in the UnsuppliedSet; otherwise, with a defined positive-capacity
ratio, OVERLOADED iff ratio > 1.0, WARNING iff ratio ∈ [0.8, 1.0] (the
0.8 boundary included), NORMAL iff ratio < 0.8; an undefined ratio (null
capacity or load, or capacity ≤ 0) yields NORMAL. -/
theorem compute_status_spec (node : Node) (unsup : List String) :
    (compute_status node unsup = "UNSUPPLIED" ↔
      node.node_type = NodeType.consumerPoint ∧ node.id ∈ unsup) ∧
    (∀ c l, node.capacity = some c → node.current_load = some l → 0 < c →
      ¬ (node.node_type = NodeType.consumerPoint ∧ node.id ∈ unsup) →
      ((compute_status node unsup = "OVERLOADED" ↔ 1 < l / c) ∧
       (compute_status node unsup = "WARNING" ↔ 0.8 ≤ l / c ∧ l / c ≤ 1) ∧
       (compute_status node unsup = "NORMAL" ↔ l / c < 0.8))) ∧
    ((node.capacity = none ∨ node.current_load = none ∨
        (∃ c, node.capacity = some c ∧ c ≤ 0)) →
      ¬ (node.node_type = NodeType.consumerPoint ∧ node.id ∈ unsup) →
      compute_status node unsup = "NORMAL") := by
  refine ⟨?_, ?_, fun h hnu => compute_status_guard_normal node unsup hnu h⟩
  · by_cases hu : node.node_type = NodeType.consumerPoint ∧ node.id ∈ unsup
    · simp [compute_status, hu]
    · cases hcp : node.capacity with
      | none => cases hl : node.current_load <;> simp [compute_status, hu, hcp, hl]
      | some c =>
        cases hl : node.current_load with
        | none => simp [compute_status, hu, hcp, hl]
        | some l =>
          simp only [compute_status, hcp, hl, if_neg hu]
          by_cases h0 : c ≤ 0
          · simp [h0, hu]
          · rw [if_neg h0]
            split_ifs <;> simp [hu]
  · intro c l hc hl h0 hnu
    rw [compute_status_ratio node unsup hnu c l hc hl h0]
    by_cases h1 : l / c < 0.8
    · rw [if_pos h1]
      refine ⟨⟨fun h => absurd h (by decide), fun h => absurd h (by linarith)⟩,
        ⟨fun h => absurd h (by decide), fun h => absurd h1 (not_lt.mpr h.1)⟩,
        ⟨fun _ => h1, fun _ => rfl⟩⟩
    · rw [if_neg h1]
      by_cases h2 : l / c ≤ 1
      · rw [if_pos h2]
        refine ⟨⟨fun h => absurd h (by decide), fun h => absurd h (by linarith)⟩,
          ⟨fun _ => ⟨not_lt.mp h1, h2⟩, fun _ => rfl⟩,
          ⟨fun h => absurd h (by decide), fun h => absurd h h1⟩⟩
      · rw [if_neg h2]
        refine ⟨⟨fun _ => not_le.mp h2, fun _ => rfl⟩,
          ⟨fun h => absurd h (by decide), fun h => absurd h.2 h2⟩,
          ⟨fun h => absurd h (by decide), fun h => absurd h h1⟩⟩

/-- C9 (counterexample): a ConsumerPoint in the UnsuppliedSet with null
capacity yields UNSUPPLIED, not NORMAL — the unsupplied branch precedes
the null-capacity guard. -/
theorem c9_counterexample :
    (exNode "c9" NodeType.consumerPoint).capacity = none ∧
    compute_status (exNode "c9" NodeType.consumerPoint) ["c9"] = "UNSUPPLIED" ∧
    "UNSUPPLIED" ≠ "NORMAL" := by
  refine ⟨by decide, by decide, by decide⟩

/-- C9 (amended): the status computation is total and never forms the
load/capacity ratio when capacity is null, load is null, or capacity is
non-positive: it returns NORMAL then, unless the node is a ConsumerPoint
in the UnsuppliedSet, in which case the earlier branch returns
UNSUPPLIED. -/
theorem compute_status_guarded (node : Node) (unsup : List String)
    (h : node.capacity = none ∨ node.current_load = none ∨
      ∃ c, node.capacity = some c ∧ c ≤ 0) :
    compute_status node unsup =
      (if node.node_type = NodeType.consumerPoint ∧ node.id ∈ unsup
       then "UNSUPPLIED" else "NORMAL") := by
  by_cases hu : node.node_type = NodeType.consumerPoint ∧ node.id ∈ unsup
  · simp [compute_status, hu]
  · rw [if_neg hu]
    exact compute_status_guard_normal node unsup hu h

/-- Witness for the amended C9 theorem: the concrete unsupplied consumer
with null capacity. -/
theorem compute_status_guarded_witness :
    ((exNode "c9" NodeType.consumerPoint).capacity = none ∨
      (exNode "c9" NodeType.consumerPoint).current_load = none ∨
      (∃ c, (exNode "c9" NodeType.consumerPoint).capacity = some c ∧ c ≤ 0)) ∧
    compute_status (exNode "c9" NodeType.consumerPoint) ["c9"] =
      (if (exNode "c9" NodeType.consumerPoint).node_type = NodeType.consumerPoint ∧
          (exNode "c9" NodeType.consumerPoint).id ∈ ["c9"]
       then "UNSUPPLIED" else "NORMAL") :=
  ⟨Or.inl (by decide),
   compute_status_guarded (exNode "c9" NodeType.consumerPoint) ["c9"]
     (Or.inl (by decide))⟩

/-- C5 (counterexample): a capacity of 13.0005 exceeds 13.0 yet the code
classifies it "Monofásica" (single-phase), because the code's threshold is
the float-tolerance value 13.001, not 13.0. -/
theorem c5_counterexample :
    determine_network_type (some (13.0005 : ℚ)) = "Monofásica" ∧
    (13 : ℚ) < 13.0005 ∧
    "Monofásica" ≠ "Trifásica" := by
  refine ⟨by decide, by decide, by decide⟩

/-- C5 (amended): network type is "Desconhecido" exactly for null
capacity; "Monofásica" exactly when capacity ≤ 13.001 (the code's
tolerance threshold); "Trifásica" exactly when capacity > 13.001. -/
theorem determine_network_type_spec (c : Option ℚ) :
    (determine_network_type c = "Desconhecido" ↔ c = none) ∧
    (∀ q, c = some q →
      ((determine_network_type c = "Monofásica" ↔ q ≤ 13.001) ∧
       (determine_network_type c = "Trifásica" ↔ 13.001 < q))) := by
  cases c with
  | none =>
    refine ⟨by simp [determine_network_type], ?_⟩
    intro q hq
    cases hq
  | some q₀ =>
    refine ⟨?_, ?_⟩
    · simp only [determine_network_type]
      split_ifs <;> simp
    · intro q hq
      cases hq
      by_cases h : q₀ ≤ 13.001
      · constructor
        · simp [determine_network_type, h]
        · constructor
          · intro hs
            exact absurd hs (by simp [determine_network_type, h])
          · intro hlt
            exact absurd h (not_le.mpr hlt)
      · constructor
        · constructor
          · intro hs
            exact absurd hs (by simp [determine_network_type, h])
          · intro hle
            exact absurd hle h
        · simp [determine_network_type, h, not_le.mp h]

/- ------------------------------------------------------------------ -/
/- C8: rounding of the snapshot's float fields.                        -/
/- ------------------------------------------------------------------ -/

/-- C8: every float field of a tree entry and of a serialized device is
`round(·, 3)` of the raw value; a rounded value is an integer number of
thousandths; the claim's concrete instances hold (1.23456 → 1.235, 1.2 →
1.2) and null stays null. -/
theorem snapshot_rounding_spec :
    round3 1.23456 = 1.235 ∧
    round3 1.2 = 1.2 ∧
    round_val none = none ∧
    (∀ q : ℚ, round3 q * 1000 = ((round3Int q : ℤ) : ℚ)) ∧
    (∀ node parent unsup,
      (build_tree_entry node parent unsup).position_x = round_val node.position_x ∧
      (build_tree_entry node parent unsup).position_y = round_val node.position_y ∧
      (build_tree_entry node parent unsup).nominal_voltage = round_val node.nominal_voltage ∧
      (build_tree_entry node parent unsup).capacity = round_val node.capacity ∧
      (build_tree_entry node parent unsup).current_load = round_val node.current_load) ∧
    (∀ dev : IoTDevice,
      (serialize_device dev).avg_power = round3 dev.avg_power ∧
      (serialize_device dev).current_power = round3 dev.current_power) := by
  refine ⟨by decide, by decide, rfl, ?_, ?_, ?_⟩
  · intro q
    unfold round3
    rw [div_mul_cancel₀]
    norm_num
  · intro node parent unsup
    exact ⟨rfl, rfl, rfl, rfl, rfl⟩
  · intro dev
    exact ⟨rfl, rfl⟩

/- ------------------------------------------------------------------ -/
/- C10: empty device lists are omitted from the devices mapping.       -/
/- ------------------------------------------------------------------ -/

/-- C10: the serialized devices mapping holds no empty list, and it holds
an entry for an id exactly when the input holds an entry with that id and
a non-empty device list. -/
theorem serialize_devices_spec (l : List (String × List IoTDevice)) (k : String) :
    (∀ e ∈ serialize_devices l, e.2 ≠ []) ∧
    ((∃ e ∈ serialize_devices l, e.1 = k) ↔ ∃ ds, (k, ds) ∈ l ∧ ds ≠ []) := by
  induction l with
  | nil => simp [serialize_devices]
  | cons p l ih =>
    obtain ⟨a, ds⟩ := p
    by_cases h : ds = []
    · subst h
      refine ⟨?_, ?_⟩
      · intro e he
        exact ih.1 e (by simpa [serialize_devices] using he)
      · rw [show serialize_devices ((a, ([] : List IoTDevice)) :: l)
            = serialize_devices l from rfl]
        rw [ih.2]
        constructor
        · rintro ⟨ds', hmem, hne⟩
          exact ⟨ds', List.mem_cons_of_mem _ hmem, hne⟩
        · rintro ⟨ds', hmem, hne⟩
          rcases List.mem_cons.mp hmem with heq | hmem'
          · exact absurd (congrArg Prod.snd heq) (by simpa using hne)
          · exact ⟨ds', hmem', hne⟩
    · have hser : serialize_devices ((a, ds) :: l)
          = (a, ds.map serialize_device) :: serialize_devices l := by
        simp [serialize_devices, h]
      refine ⟨?_, ?_⟩
      · intro e he
        rw [hser] at he
        rcases List.mem_cons.mp he with rfl | he'
        · exact fun hm => h (List.map_eq_nil_iff.mp hm)
        · exact ih.1 e he'
      · rw [hser]
        constructor
        · rintro ⟨e, he, hek⟩
          rcases List.mem_cons.mp he with rfl | he'
          · exact ⟨ds, by rw [← hek]; exact List.mem_cons_self _ _, h⟩
          · obtain ⟨ds', hmem, hne⟩ := ih.2.mp ⟨e, he', hek⟩
            exact ⟨ds', List.mem_cons_of_mem _ hmem, hne⟩
        · rintro ⟨ds', hmem, hne⟩
          rcases List.mem_cons.mp hmem with heq | hmem'
          · have h1 : k = a := congrArg Prod.fst heq
            exact ⟨(a, ds.map serialize_device), List.mem_cons_self _ _, h1.symm⟩
          · obtain ⟨e, he, hek⟩ := ih.2.mpr ⟨ds', hmem', hne⟩
            exact ⟨e, List.mem_cons_of_mem _ he, hek⟩

/- ------------------------------------------------------------------ -/
/- app.py: the single mutation endpoint /change-node.                  -/
/- ------------------------------------------------------------------ -/

/-- A JSON-ish value of the request body of /change-node. -/
inductive ReqValue where
  | vNull
  | vBool (b : Bool)
  | vNum (q : ℚ)
  | vStr (s : String)
deriving DecidableEq

/-- The request body: a JSON object as an association list in key order. -/
def Request : Type := List (String × ReqValue)

/-- `data.get(k)`: first value under the key, `None`-as-absent. -/
def Request.getKey (d : Request) (k : String) : Option ReqValue :=
  (d.find? (fun pr => pr.1 = k)).map (fun pr => pr.2)

/-- `k in data`. -/
def Request.hasKey (d : Request) (k : String) : Bool :=
  (d.find? (fun pr => pr.1 = k)).isSome

/-- Python truthiness of `data.get("id")` (`if not id_no`). -/
def truthy : Option ReqValue → Bool
  | none => false
  | some .vNull => false
  | some (.vBool b) => b
  | some (.vNum q) => !(q = 0 : Bool)
  | some (.vStr s) => !(s = "" : Bool)

/-- The backend call selected by the endpoint's if/elif chain. -/
inductive NodeAction where
  | setCapacity (v : ReqValue)
  | addNode
  | deleteNode
  | changeParentRouting
  | forceParent (v : ReqValue)
deriving DecidableEq

/-- `change_node` of app.py: reject a missing/falsy id; then the first
matching branch of the if/elif chain wins — `capacity_kw` present, then
`add_node` literally true, then `delete_node`, then
`change_parent_routing`, then `new_parent` present; no branch matches ⇒
the invalid-request error, and no backend call is made. -/
def change_node (d : Request) : Except String NodeAction :=
  if ¬ truthy (d.getKey "id") then .error "ID do nó não fornecido"
  else if d.hasKey "capacity_kw" then
    .ok (.setCapacity ((d.getKey "capacity_kw").getD .vNull))
  else if d.getKey "add_node" = some (.vBool true) then .ok .addNode
  else if d.getKey "delete_node" = some (.vBool true) then .ok .deleteNode
  else if d.getKey "change_parent_routing" = some (.vBool true) then
    .ok .changeParentRouting
  else if d.hasKey "new_parent" then
    .ok (.forceParent ((d.getKey "new_parent").getD .vNull))
  else .error "Nenhuma ação válida fornecida"

/-- A request carrying two action keys at once. -/
def reqTwoActions : Request :=
  [("id", .vStr "n1"), ("add_node", .vBool true), ("delete_node", .vBool true)]

/-- A request using the claim's key name `capacity`. -/
def reqClaimCapacityKey : Request :=
  [("id", .vStr "n1"), ("capacity", .vNum 500)]

/-- C4 (counterexample): a request with two action keys is not rejected —
the endpoint runs the first matching branch (here add_node) and mutates
state; and the capacity action's key is `capacity_kw`, not `capacity`: a
request with only the key `capacity` is answered with the invalid-request
error although it carries exactly one of the claim's action keys. -/
theorem c4_counterexample :
    change_node reqTwoActions = .ok .addNode ∧
    (∀ e, change_node reqTwoActions ≠ .error e) ∧
    change_node reqClaimCapacityKey = .error "Nenhuma ação válida fornecida" := by
  refine ⟨rfl, ?_, rfl⟩
  intro e h
  exact Except.noConfusion
    ((show change_node reqTwoActions = Except.ok NodeAction.addNode from rfl).symm.trans h)

/-- C4 (amended): the endpoint requires a truthy id and at least one
action key among capacity_kw, add_node (boolean keys only when literally
true), delete_node, change_parent_routing, new_parent; with none of them
it answers the invalid-request error and performs no backend call; with
several present the first in that fixed order is applied, without error. -/
theorem change_node_spec (d : Request) :
    (truthy (d.getKey "id") = false →
      change_node d = .error "ID do nó não fornecido") ∧
    (truthy (d.getKey "id") = true →
      (((∃ a, change_node d = .ok a) ↔
          (d.hasKey "capacity_kw" = true ∨
           d.getKey "add_node" = some (.vBool true) ∨
           d.getKey "delete_node" = some (.vBool true) ∨
           d.getKey "change_parent_routing" = some (.vBool true) ∨
           d.hasKey "new_parent" = true)) ∧
       (d.hasKey "capacity_kw" = false →
        d.getKey "add_node" ≠ some (.vBool true) →
        d.getKey "delete_node" ≠ some (.vBool true) →
        d.getKey "change_parent_routing" ≠ some (.vBool true) →
        d.hasKey "new_parent" = false →
          change_node d = .error "Nenhuma ação válida fornecida") ∧
       (d.hasKey "capacity_kw" = true →
          change_node d = .ok (.setCapacity ((d.getKey "capacity_kw").getD .vNull))) ∧
       (d.hasKey "capacity_kw" = false →
        d.getKey "add_node" = some (.vBool true) →
          change_node d = .ok .addNode))) := by
  unfold change_node
  by_cases hid : truthy (d.getKey "id") = true
  · rw [if_neg (by simp [hid])]
    refine ⟨fun h => Bool.noConfusion (h ▸ hid), fun _ => ?_⟩
    by_cases h1 : d.hasKey "capacity_kw" = true
    · rw [if_pos h1]
      refine ⟨⟨fun _ => Or.inl h1, fun _ => ⟨_, rfl⟩⟩, ?_, fun _ => rfl, ?_⟩
      · intro hc _ _ _ _
        exact Bool.noConfusion (hc ▸ h1)
      · intro hc _
        exact Bool.noConfusion (hc ▸ h1)
    · have h1f : d.hasKey "capacity_kw" = false := by
        cases hv : d.hasKey "capacity_kw"
        · rfl
        · exact absurd hv h1
      rw [if_neg (by simp [h1f])]
      by_cases h2 : d.getKey "add_node" = some (.vBool true)
      · rw [if_pos h2]
        exact ⟨⟨fun _ => Or.inr (Or.inl h2), fun _ => ⟨_, rfl⟩⟩,
          fun _ ha _ _ _ => absurd h2 ha,
          fun hc => Bool.noConfusion (hc ▸ h1f),
          fun _ _ => rfl⟩
      · rw [if_neg h2]
        by_cases h3 : d.getKey "delete_node" = some (.vBool true)
        · rw [if_pos h3]
          exact ⟨⟨fun _ => Or.inr (Or.inr (Or.inl h3)), fun _ => ⟨_, rfl⟩⟩,
            fun _ _ hdel _ _ => absurd h3 hdel,
            fun hc => Bool.noConfusion (hc ▸ h1f),
            fun _ ha => absurd ha h2⟩
        · rw [if_neg h3]
          by_cases h4 : d.getKey "change_parent_routing" = some (.vBool true)
          · rw [if_pos h4]
            exact ⟨⟨fun _ => Or.inr (Or.inr (Or.inr (Or.inl h4))), fun _ => ⟨_, rfl⟩⟩,
              fun _ _ _ hch _ => absurd h4 hch,
              fun hc => Bool.noConfusion (hc ▸ h1f),
              fun _ ha => absurd ha h2⟩
          · rw [if_neg h4]
            by_cases h5 : d.hasKey "new_parent" = true
            · rw [if_pos h5]
              exact ⟨⟨fun _ => Or.inr (Or.inr (Or.inr (Or.inr h5))), fun _ => ⟨_, rfl⟩⟩,
                fun _ _ _ _ hnp => Bool.noConfusion (hnp ▸ h5),
                fun hc => Bool.noConfusion (hc ▸ h1f),
                fun _ ha => absurd ha h2⟩
            · rw [if_neg h5]
              refine ⟨⟨?_, ?_⟩, fun _ _ _ _ _ => rfl,
                fun hc => Bool.noConfusion (hc ▸ h1f),
                fun _ ha => absurd ha h2⟩
              · rintro ⟨a, ha⟩
                cases ha
              · rintro (h | h | h | h | h)
                · exact Bool.noConfusion (h ▸ h1f)
                · exact absurd h h2
                · exact absurd h h3
                · exact absurd h h4
                · exact absurd h h5
  · have hidf : truthy (d.getKey "id") = false := by
      cases hv : truthy (d.getKey "id")
      · rfl
      · exact absurd hv hid
    rw [if_pos (by simp [hidf])]
    exact ⟨fun _ => rfl, fun h => Bool.noConfusion (h ▸ hidf)⟩

/- ------------------------------------------------------------------ -/
/- backend/api/backend_facade.py: the stateful backend.                -/
/- Collaborators not under the staged sources (device catalog/sim,     -/
/- logical service, functional api) are modelled from the spec.        -/
/- ------------------------------------------------------------------ -/

/-- Modelled from the spec: the fixed device catalog entries
(physical/device_catalog.py is not under the staged sources; powers are
the spec's and the tests': TV 0.095, Fridge 0.1, Shower 6.5,
Generic 0.1). -/
def deviceTemplate : DeviceType → String × ℚ
  | .tv => ("TV", 0.095)
  | .fridge => ("Geladeira", 0.1)
  | .shower => ("Chuveiro Elétrico", 6.5)
  | .generic => ("Dispositivo Genérico", 0.1)

/-- Modelled from the spec: the pure, time-coarse noise function of the
DeviceSimulator (physical/device_simulation.py is not under the staged
sources): flat profiles fluctuate narrowly around the average in 30 s
blocks, the shower has an on/off duty cycle in 60 s blocks. -/
def noiseFn (ty : DeviceType) (avg : ℚ) (t : ℚ) : ℚ :=
  match ty with
  | .shower => if (⌊t / 60⌋ : ℤ) % 10 = 0 then avg else avg / 10
  | _ => avg * (1 + ((((⌊t / 30⌋ : ℤ) % 7) - 3 : ℤ) : ℚ) / 100)

/-- The backend state the facade owns: the physical graph, the logical
hierarchy, the UnsuppliedSet, the device table and the operation log. -/
structure BackendState where
  graph : PowerGridGraph
  forest : Forest
  unsupplied : List String
  devices : List (String × List IoTDevice)
  logs : List String

/-- Walk the ancestor chain (`getParent` repeatedly) with enough fuel to
exhaust any forest. -/
def ancestorChainAux (F : Forest) : Nat → String → List String
  | 0, _ => []
  | n + 1, x =>
    x :: (match parentF F x with
          | none => []
          | some p => ancestorChainAux F n p)

/-- The chain from a node to its root, the node itself included. -/
def ancestorChain (F : Forest) (x : String) : List String :=
  ancestorChainAux F ((preorderF F).length + 1) x

/-- Modelled from the spec: `propagateLoadDelta(nodeId, delta)` of the
LoadAggregator — add the delta to `current_load` at the node and at every
ancestor, stopping at the root. -/
def propagateLoadDelta (g : PowerGridGraph) (F : Forest) (x : String)
    (delta : ℚ) : PowerGridGraph :=
  (ancestorChain F x).foldl (fun g' nid => g'.addLoad nid delta) g

/-- Sum of the devices' instantaneous powers. -/
def devicesPowerSum (devs : List IoTDevice) : ℚ :=
  (devs.map (fun d => d.current_power)).sum

/-- Sum of the devices' average powers. -/
def devicesAvgSum (devs : List IoTDevice) : ℚ :=
  (devs.map (fun d => d.avg_power)).sum

/-- Modelled from the spec: `update_devices_and_nodes_loads` — advance the
DeviceSimulator to time `t`: recompute each device's power from the pure
noise function and push every consumer's aggregate delta through the
LoadAggregator. -/
def advanceDevices (s : BackendState) (t : ℚ) : BackendState :=
  s.devices.foldl (fun acc pr =>
    let newDevs := pr.2.map (fun d =>
      { d with current_power := noiseFn d.device_type d.avg_power t })
    let delta := devicesPowerSum newDevs - devicesPowerSum pr.2
    { acc with
      graph := propagateLoadDelta acc.graph acc.forest pr.1 delta,
      devices := acc.devices.map (fun q => if q.1 = pr.1 then (q.1, newDevs) else q) }) s

/-- The node's current load, 0 when absent or null. -/
def nodeLoad (g : PowerGridGraph) (x : String) : ℚ :=
  match g.get_node x with
  | some nd => nd.current_load.getD 0
  | none => 0

/-- The physical neighbours of `x` with the connecting edge's length. -/
def candidateEdges (g : PowerGridGraph) (x : String) : List (String × ℚ) :=
  g.edges.filterMap (fun e =>
    if e.from_node_id = x then some (e.to_node_id, e.length)
    else if e.to_node_id = x then some (e.from_node_id, e.length)
    else none)

/-- Modelled from the spec: supplier eligibility — a candidate must exist,
be a non-consumer registered in the logical tree, and have spare capacity
at least the load to be attached. -/
def eligibleSupplier (g : PowerGridGraph) (F : Forest) (load : ℚ)
    (cand : String) : Bool :=
  match g.get_node cand with
  | none => false
  | some nd =>
    decide (nd.node_type ≠ NodeType.consumerPoint) &&
    (preorderF F).contains cand &&
    decide (load ≤ nd.capacity.getD 0 - nd.current_load.getD 0)

/-- The ranking key of a candidate: post-attachment load ratio, then edge
length, then id. -/
def candKey (g : PowerGridGraph) (load : ℚ) (cand : String × ℚ) :
    ℚ × ℚ × String :=
  match g.get_node cand.1 with
  | some nd => ((nd.current_load.getD 0 + load) / nd.capacity.getD 0, cand.2, cand.1)
  | none => (0, cand.2, cand.1)

/-- Lexicographic comparison of ranking keys. -/
def keyLt (a b : ℚ × ℚ × String) : Bool :=
  decide (a.1 < b.1) ||
  (decide (a.1 = b.1) &&
    (decide (a.2.1 < b.2.1) ||
     (decide (a.2.1 = b.2.1) && decide (a.2.2 < b.2.2))))

/-- The best candidate under the ranking key, if any. -/
def chooseBest (g : PowerGridGraph) (load : ℚ)
    (cands : List (String × ℚ)) : Option String :=
  (cands.foldl (fun best c =>
    match best with
    | none => some c
    | some b => if keyLt (candKey g load c) (candKey g load b) then some c else some b)
    none).map (fun pr => pr.1)

/-- Modelled from the spec: one reconnection attempt of
`retryUnsuppliedRouting` for an unsupplied id — search the physical
neighbourhood for the best eligible supplier; on success attach the node
under it, drop it from the UnsuppliedSet, propagate its load upward and
log the reconnection; on failure leave the state unchanged. -/
def retryOne (s : BackendState) (uid : String) : BackendState :=
  match s.graph.get_node uid with
  | none => s
  | some nd =>
    let load := nd.current_load.getD 0
    let cands := (candidateEdges s.graph uid).filter
      (fun c => eligibleSupplier s.graph s.forest load c.1)
    match chooseBest s.graph load cands with
    | none => s
    | some pid =>
      let F' := attachF pid (HTree.mk uid Forest.nil) s.forest
      { s with
        forest := F',
        unsupplied := s.unsupplied.filter (fun x => decide (x ≠ uid)),
        graph := propagateLoadDelta s.graph F' pid load,
        logs := s.logs ++ [uid ++ " reconectado ao fornecedor " ++ pid] }

/-- Modelled from the spec: `retry_unsupplied_routing` — attempt to
reconnect every unsupplied id, in the set's stable order. -/
def retryUnsupplied (s : BackendState) : BackendState :=
  s.unsupplied.foldl retryOne s

/-- One catalog device instantiated for a consumer. -/
def defaultDeviceFor (cid : String) (idx : Nat) (ty : DeviceType) : IoTDevice :=
  { id := cid ++ "-dev-" ++ toString idx,
    name := (deviceTemplate ty).1,
    device_type := ty,
    avg_power := (deviceTemplate ty).2,
    current_power := (deviceTemplate ty).2 }

/-- Devices instantiated from a list of device types, indexed from `i`. -/
def buildDevicesAux (cid : String) : Nat → List DeviceType → List IoTDevice
  | _, [] => []
  | i, ty :: tys => defaultDeviceFor cid i ty :: buildDevicesAux cid (i + 1) tys

/-- Devices instantiated from a list of device types. -/
def buildDevices (cid : String) (tys : List DeviceType) : List IoTDevice :=
  buildDevicesAux cid 0 tys

/-- The consumer ids of the graph, in node order. -/
def consumerIds (g : PowerGridGraph) : List String :=
  (g.nodes.filter (fun nd => nd.node_type = NodeType.consumerPoint)).map
    (fun nd => nd.id)

/-- The device types `_init_default_devices` seeds for every consumer:
"Default configuration: 1 TV, 1 Fridge". -/
def defaultDeviceTypes : List DeviceType := [DeviceType.tv, DeviceType.fridge]

/-- Modelled from the spec: `build_device_simulation_state` — one device
per requested type, instantiated from the catalog (the facade requests
`defaultDeviceTypes` for every consumer). -/
def build_device_simulation_state (g : PowerGridGraph) :
    List (String × List IoTDevice) :=
  (consumerIds g).map (fun cid => (cid, buildDevices cid defaultDeviceTypes))

/-- The consumer service tier of the spec: 13.0 when the total average
device power is at most 13.0, else 25.0. -/
def consumerTierCapacity (avgSum : ℚ) : ℚ :=
  if avgSum ≤ 13 then 13 else 25

/-- The device list recorded for a consumer, empty when absent. -/
def devsOf (s : BackendState) (cid : String) : List IoTDevice :=
  ((s.devices.find? (fun pr => pr.1 = cid)).map (fun pr => pr.2)).getD []

/-- Modelled from the spec: `update_load_after_device_change`
(logic/logical_graph_service.py is not under the staged sources) —
recompute the consumer's load from its devices, propagate the delta
upward, and set the consumer's service-tier capacity from its device
load. -/
def update_load_after_device_change (s : BackendState) (cid : String) :
    BackendState :=
  let devs := devsOf s cid
  let newLoad := devicesPowerSum devs
  let oldLoad := nodeLoad s.graph cid
  let g1 := propagateLoadDelta s.graph s.forest cid (newLoad - oldLoad)
  { s with graph := g1.setCapacity cid (some (consumerTierCapacity (devicesAvgSum devs))) }

/-- `_init_default_devices` of backend_facade.py: seed every consumer's
device list with the default configuration, then propagate each
consumer's initial device load. -/
def init_default_devices (s : BackendState) : BackendState :=
  let s1 := { s with devices := build_device_simulation_state s.graph }
  (consumerIds s.graph).foldl update_load_after_device_change s1

/-- The facade's initialization tail (`__init__` steps 2.5 and 3):
`initialize_capacities` over the hydrated hierarchy, then
`_init_default_devices`. -/
def backendInit (s : BackendState) : BackendState :=
  init_default_devices { s with graph := initialize_capacities s.graph s.forest }

/-- The full UI snapshot. -/
structure Snapshot where
  tree : List TreeEntry
  devices : List (String × List DeviceEntry)
  logs : List String
deriving DecidableEq

/-- `build_full_ui_snapshot` of ui_tree_snapshot.py: walk the hierarchy in
preorder, skip ids without a node, emit one entry per node, plus the
serialized device table and the logs. -/
def build_full_ui_snapshot (g : PowerGridGraph) (F : Forest)
    (unsup : List String) (dbn : List (String × List IoTDevice))
    (logs : List String) : Snapshot :=
  { tree := (preorderF F).filterMap (fun nid =>
      (g.get_node nid).map (fun node => build_tree_entry node (parentF F nid) unsup)),
    devices := serialize_devices dbn,
    logs := logs }

/-- Modelled from the spec: `api_get_tree_snapshot`
(api/logical_backend_api.py is not under the staged sources) — pass the
backend's state through to the snapshot builder. -/
def api_get_tree_snapshot (s : BackendState) : Snapshot :=
  build_full_ui_snapshot s.graph s.forest s.unsupplied s.devices s.logs

/-- `get_tree_snapshot` of backend_facade.py: (1) advance the device
simulation to the current time, (2) retry unsupplied routing, (3) emit
the snapshot. -/
def get_tree_snapshot (s : BackendState) (t : ℚ) : Snapshot :=
  api_get_tree_snapshot (retryUnsupplied (advanceDevices s t))

/-- A concrete backend state over the example hierarchy. -/
def exStateC1 : BackendState :=
  { graph := exGraphC1, forest := exForestC1, unsupplied := [],
    devices := [], logs := [] }

/-- C6 (code bug): at backend initialization every ConsumerPoint is
seeded with exactly 2 devices (one TV, one Fridge), not with 3–10 devices
as the spec and the repository's own test
(test_new_requirements.test_initialization_rules) require. -/
theorem c6_device_seeding :
    ((backendInit exStateC1).devices.find? (fun pr => pr.1 = "c1")).map
        (fun pr => pr.2.length) = some 2 ∧
    ¬ (3 ≤ 2 ∧ 2 ≤ 10) := by
  refine ⟨by decide, by decide⟩

/-- In the emitted preorder tree, every node with a recorded parent
appears strictly after its parent's entry. -/
theorem snapshot_parent_before (g : PowerGridGraph) (F : Forest)
    (unsup : List String) (dbn : List (String × List IoTDevice))
    (logs : List String)
    (hpres : ∀ id ∈ preorderF F, (g.get_node id).isSome = true)
    (id p : String) (hmem : id ∈ preorderF F) (hp : parentF F id = some p) :
    ∃ l₁ ep l₂, (build_full_ui_snapshot g F unsup dbn logs).tree = l₁ ++ ep :: l₂ ∧
      ep.id = p ∧ ∃ ec ∈ l₂, ec.id = id := by
  have hpair : (id, p) ∈ pairsF F := by
    unfold parentF at hp
    cases hfind : (pairsF F).find? (fun pr => pr.1 = id) with
    | none => rw [hfind] at hp; cases hp
    | some pr =>
      rw [hfind] at hp
      have h1 : pr.1 = id := by simpa using List.find?_some hfind
      have h2 : pr.2 = p := by simpa using hp
      have hm := List.mem_of_find?_eq_some hfind
      rw [← h1, ← h2]
      exact hm
  obtain ⟨l₁, l₂, hsplit, hidl₂⟩ := pairsF_appearsBefore F id p hpair
  have hpmem : p ∈ preorderF F := by
    rw [hsplit]
    exact List.mem_append_right _ (List.mem_cons_self _ _)
  obtain ⟨nodep, hnodep⟩ : ∃ nd, g.get_node p = some nd := by
    cases hnp : g.get_node p with
    | none =>
      have := hpres p hpmem
      rw [hnp] at this
      cases this
    | some nd => exact ⟨nd, rfl⟩
  obtain ⟨nodei, hnodei⟩ : ∃ nd, g.get_node id = some nd := by
    cases hni : g.get_node id with
    | none =>
      have := hpres id hmem
      rw [hni] at this
      cases this
    | some nd => exact ⟨nd, rfl⟩
  refine ⟨l₁.filterMap (fun nid =>
      (g.get_node nid).map (fun node => build_tree_entry node (parentF F nid) unsup)),
    build_tree_entry nodep (parentF F p) unsup,
    l₂.filterMap (fun nid =>
      (g.get_node nid).map (fun node => build_tree_entry node (parentF F nid) unsup)),
    ?_, ?_, ?_⟩
  · show (preorderF F).filterMap _ = _
    rw [hsplit, List.filterMap_append, List.filterMap_cons]
    simp [hnodep]
  · show (build_tree_entry nodep (parentF F p) unsup).id = p
    simpa [build_tree_entry] using get_node_id hnodep
  · refine ⟨build_tree_entry nodei (parentF F id) unsup, ?_, ?_⟩
    · exact List.mem_filterMap.mpr ⟨id, hidl₂, by simp [hnodei]⟩
    · simpa [build_tree_entry] using get_node_id hnodei

/-- C7: `getTreeSnapshot` is the composition (1) advance the
DeviceSimulator, (2) `retryUnsuppliedRouting`, (3) preorder emission; and
in the emitted tree list every node with a parent appears strictly after
its parent's entry. -/
theorem get_tree_snapshot_spec (s : BackendState) (t : ℚ)
    (hpres : ∀ id ∈ preorderF (retryUnsupplied (advanceDevices s t)).forest,
      ((retryUnsupplied (advanceDevices s t)).graph.get_node id).isSome = true) :
    get_tree_snapshot s t
        = api_get_tree_snapshot (retryUnsupplied (advanceDevices s t)) ∧
    ∀ id p, id ∈ preorderF (retryUnsupplied (advanceDevices s t)).forest →
      parentF (retryUnsupplied (advanceDevices s t)).forest id = some p →
      ∃ l₁ ep l₂, (get_tree_snapshot s t).tree = l₁ ++ ep :: l₂ ∧ ep.id = p ∧
        ∃ ec ∈ l₂, ec.id = id :=
  ⟨rfl, fun id p hmem hp =>
    snapshot_parent_before (retryUnsupplied (advanceDevices s t)).graph
      (retryUnsupplied (advanceDevices s t)).forest
      (retryUnsupplied (advanceDevices s t)).unsupplied
      (retryUnsupplied (advanceDevices s t)).devices
      (retryUnsupplied (advanceDevices s t)).logs
      hpres id p hmem hp⟩

/-- Witness for C7 at the concrete example state and time 0. -/
theorem get_tree_snapshot_spec_witness :
    (∀ id ∈ preorderF (retryUnsupplied (advanceDevices exStateC1 0)).forest,
      ((retryUnsupplied (advanceDevices exStateC1 0)).graph.get_node id).isSome = true) ∧
    (get_tree_snapshot exStateC1 0
        = api_get_tree_snapshot (retryUnsupplied (advanceDevices exStateC1 0)) ∧
     ∀ id p, id ∈ preorderF (retryUnsupplied (advanceDevices exStateC1 0)).forest →
       parentF (retryUnsupplied (advanceDevices exStateC1 0)).forest id = some p →
       ∃ l₁ ep l₂, (get_tree_snapshot exStateC1 0).tree = l₁ ++ ep :: l₂ ∧
         ep.id = p ∧ ∃ ec ∈ l₂, ec.id = id) :=
  ⟨by decide, get_tree_snapshot_spec exStateC1 0 (by decide)⟩

/- ------------------------------------------------------------------ -/
/- C2: consumer capacity after initialization.                         -/
/- ------------------------------------------------------------------ -/

/-- View of a node's capacity through `get_node`. -/
def capView (g : PowerGridGraph) (j : String) : Option (Option ℚ) :=
  (g.get_node j).map (fun nd => nd.capacity)

/-- View of a node's id and type through `get_node`. -/
def idTypeView (g : PowerGridGraph) (j : String) : Option (String × NodeType) :=
  (g.get_node j).map (fun nd => (nd.id, nd.node_type))

theorem addLoad_capView (g : PowerGridGraph) (nid : String) (delta : ℚ)
    (j : String) : capView (g.addLoad nid delta) j = capView g j := by
  unfold capView PowerGridGraph.addLoad
  by_cases hj : j = nid
  · subst hj
    rw [get_node_updateNode_self g j
      (fun nd => { nd with current_load := some (nd.current_load.getD 0 + delta) })
      (fun _ => rfl)]
    cases g.get_node j <;> rfl
  · rw [get_node_updateNode_ne g nid
      (fun nd => { nd with current_load := some (nd.current_load.getD 0 + delta) })
      (fun _ => rfl) j hj]

theorem setCapacity_capView_ne (g : PowerGridGraph) (nid : String)
    (c : Option ℚ) (j : String) (hj : j ≠ nid) :
    capView (g.setCapacity nid c) j = capView g j := by
  unfold capView PowerGridGraph.setCapacity
  rw [get_node_updateNode_ne g nid (fun nd => { nd with capacity := c })
    (fun _ => rfl) j hj]

theorem setCapacity_capView_self (g : PowerGridGraph) (nid : String)
    (c : Option ℚ) :
    capView (g.setCapacity nid c) nid = (capView g nid).map (fun _ => c) := by
  unfold capView PowerGridGraph.setCapacity
  rw [get_node_updateNode_self g nid (fun nd => { nd with capacity := c })
    (fun _ => rfl)]
  cases g.get_node nid <;> rfl

theorem foldl_addLoad_capView (delta : ℚ) :
    ∀ (l : List String) (g : PowerGridGraph) (j : String),
      capView (l.foldl (fun g' nid => g'.addLoad nid delta) g) j = capView g j := by
  intro l
  induction l with
  | nil => intro g j; rfl
  | cons x xs ih =>
    intro g j
    rw [List.foldl_cons, ih, addLoad_capView]

theorem propagateLoadDelta_capView (g : PowerGridGraph) (F : Forest)
    (x : String) (delta : ℚ) (j : String) :
    capView (propagateLoadDelta g F x delta) j = capView g j :=
  foldl_addLoad_capView delta (ancestorChain F x) g j

theorem addLoad_idTypeView (g : PowerGridGraph) (nid : String) (delta : ℚ)
    (j : String) : idTypeView (g.addLoad nid delta) j = idTypeView g j :=
  skeleton_updateNode g nid
    (fun nd => { nd with current_load := some (nd.current_load.getD 0 + delta) })
    (fun _ => rfl) (fun _ => rfl) j

theorem setCapacity_idTypeView (g : PowerGridGraph) (nid : String)
    (c : Option ℚ) (j : String) :
    idTypeView (g.setCapacity nid c) j = idTypeView g j :=
  skeleton_updateNode g nid (fun nd => { nd with capacity := c })
    (fun _ => rfl) (fun _ => rfl) j

theorem foldl_addLoad_idTypeView (delta : ℚ) :
    ∀ (l : List String) (g : PowerGridGraph) (j : String),
      idTypeView (l.foldl (fun g' nid => g'.addLoad nid delta) g) j = idTypeView g j := by
  intro l
  induction l with
  | nil => intro g j; rfl
  | cons x xs ih =>
    intro g j
    rw [List.foldl_cons, ih, addLoad_idTypeView]

theorem propagateLoadDelta_idTypeView (g : PowerGridGraph) (F : Forest)
    (x : String) (delta : ℚ) (j : String) :
    idTypeView (propagateLoadDelta g F x delta) j = idTypeView g j :=
  foldl_addLoad_idTypeView delta (ancestorChain F x) g j

theorem capacityStep_idTypeView (avg : ℚ) (F : Forest) (g : PowerGridGraph)
    (nid j : String) :
    idTypeView (capacityStep avg F g nid) j = idTypeView g j := by
  unfold capacityStep
  cases hg : g.get_node nid with
  | none => rfl
  | some node =>
    by_cases hc : node.node_type = NodeType.consumerPoint
    · simp only [hc, if_pos]
      exact setCapacity_idTypeView g nid none j
    · simp only [hc, if_neg, if_false]
      exact setCapacity_idTypeView g nid _ j

theorem foldl_capacityStep_idTypeView (avg : ℚ) (F : Forest) :
    ∀ (l : List String) (g : PowerGridGraph) (j : String),
      idTypeView (l.foldl (capacityStep avg F) g) j = idTypeView g j := by
  intro l
  induction l with
  | nil => intro g j; rfl
  | cons x xs ih =>
    intro g j
    rw [List.foldl_cons, ih, capacityStep_idTypeView]

theorem initialize_capacities_idTypeView (g : PowerGridGraph) (F : Forest)
    (j : String) :
    idTypeView (initialize_capacities g F) j = idTypeView g j :=
  foldl_capacityStep_idTypeView (avgConsumersPerCluster g) F
    (List.reverse (preorderF F)) g j

theorem update_load_devices (s : BackendState) (cid : String) :
    (update_load_after_device_change s cid).devices = s.devices := rfl

theorem update_load_capView_ne (s : BackendState) (cid j : String)
    (hj : j ≠ cid) :
    capView (update_load_after_device_change s cid).graph j = capView s.graph j := by
  simp only [update_load_after_device_change]
  rw [setCapacity_capView_ne _ _ _ j hj, propagateLoadDelta_capView]

theorem update_load_capView_self (s : BackendState) (cid : String) :
    capView (update_load_after_device_change s cid).graph cid
      = (capView s.graph cid).map
          (fun _ => some (consumerTierCapacity (devicesAvgSum (devsOf s cid)))) := by
  simp only [update_load_after_device_change]
  rw [setCapacity_capView_self, propagateLoadDelta_capView]

theorem update_load_idTypeView (s : BackendState) (cid j : String) :
    idTypeView (update_load_after_device_change s cid).graph j
      = idTypeView s.graph j := by
  simp only [update_load_after_device_change]
  rw [setCapacity_idTypeView, propagateLoadDelta_idTypeView]

theorem foldl_update_devices :
    ∀ (l : List String) (s : BackendState),
      (l.foldl update_load_after_device_change s).devices = s.devices := by
  intro l
  induction l with
  | nil => intro s; rfl
  | cons x xs ih =>
    intro s
    rw [List.foldl_cons]
    exact ih _

theorem foldl_update_idTypeView :
    ∀ (l : List String) (s : BackendState) (j : String),
      idTypeView (l.foldl update_load_after_device_change s).graph j
        = idTypeView s.graph j := by
  intro l
  induction l with
  | nil => intro s j; rfl
  | cons x xs ih =>
    intro s j
    rw [List.foldl_cons, ih, update_load_idTypeView]

theorem foldl_update_capView_ne :
    ∀ (l : List String) (s : BackendState) (j : String), j ∉ l →
      capView (l.foldl update_load_after_device_change s).graph j
        = capView s.graph j := by
  intro l
  induction l with
  | nil => intro s j _; rfl
  | cons x xs ih =>
    intro s j hj
    have hjx : j ≠ x := fun e => hj (e ▸ List.mem_cons_self x xs)
    have hjxs : j ∉ xs := fun h => hj (List.mem_cons_of_mem x h)
    rw [List.foldl_cons, ih _ j hjxs, update_load_capView_ne _ _ j hjx]

theorem foldl_update_capView_mem :
    ∀ (l : List String) (s : BackendState), l.Nodup →
      ∀ cid ∈ l,
        capView (l.foldl update_load_after_device_change s).graph cid
          = (capView s.graph cid).map
              (fun _ => some (consumerTierCapacity (devicesAvgSum (devsOf s cid)))) := by
  intro l
  induction l with
  | nil => intro s _ cid h; cases h
  | cons x xs ih =>
    intro s hnd cid hmem
    rw [List.foldl_cons]
    rcases List.mem_cons.mp hmem with rfl | hmemxs
    · have hx : cid ∉ xs := (List.nodup_cons.mp hnd).1
      rw [foldl_update_capView_ne xs _ cid hx, update_load_capView_self]
    · have hx : x ∉ xs := (List.nodup_cons.mp hnd).1
      have hne : cid ≠ x := fun e => hx (e ▸ hmemxs)
      rw [ih _ (List.nodup_cons.mp hnd).2 cid hmemxs,
        update_load_capView_ne s x cid hne]
      rfl

theorem filter_map_consumer_ids (nds : List Node) (nid : String)
    (fn : Node → Node) (hf : ∀ nd, (fn nd).id = nd.id)
    (ht : ∀ nd, (fn nd).node_type = nd.node_type) :
    ((nds.map (fun nd => if nd.id = nid then fn nd else nd)).filter
        (fun nd => nd.node_type = NodeType.consumerPoint)).map (fun nd => nd.id)
      = (nds.filter (fun nd => nd.node_type = NodeType.consumerPoint)).map
          (fun nd => nd.id) := by
  induction nds with
  | nil => rfl
  | cons nd nds ih =>
    have hu_id : (if nd.id = nid then fn nd else nd).id = nd.id := by
      by_cases h : nd.id = nid <;> simp [h, hf]
    have hu_ty : (if nd.id = nid then fn nd else nd).node_type = nd.node_type := by
      by_cases h : nd.id = nid <;> simp [h, ht]
    by_cases hc : nd.node_type = NodeType.consumerPoint <;>
      simp [List.filter_cons, hu_ty, hc, hu_id, ih]

theorem consumerIds_updateNode (g : PowerGridGraph) (nid : String)
    (fn : Node → Node) (hf : ∀ nd, (fn nd).id = nd.id)
    (ht : ∀ nd, (fn nd).node_type = nd.node_type) :
    consumerIds (g.updateNode nid fn) = consumerIds g :=
  filter_map_consumer_ids g.nodes nid fn hf ht

theorem consumerIds_capacityStep (avg : ℚ) (F : Forest) (g : PowerGridGraph)
    (nid : String) :
    consumerIds (capacityStep avg F g nid) = consumerIds g := by
  unfold capacityStep
  cases hg : g.get_node nid with
  | none => rfl
  | some node =>
    by_cases hc : node.node_type = NodeType.consumerPoint
    · simp only [hc, if_pos]
      exact consumerIds_updateNode g nid (fun nd => { nd with capacity := none })
        (fun _ => rfl) (fun _ => rfl)
    · simp only [hc, if_neg, if_false]
      exact consumerIds_updateNode g nid _ (fun _ => rfl) (fun _ => rfl)

theorem consumerIds_foldl_capacityStep (avg : ℚ) (F : Forest) :
    ∀ (l : List String) (g : PowerGridGraph),
      consumerIds (l.foldl (capacityStep avg F) g) = consumerIds g := by
  intro l
  induction l with
  | nil => intro g; rfl
  | cons x xs ih =>
    intro g
    rw [List.foldl_cons, ih, consumerIds_capacityStep]

theorem consumerIds_initialize (g : PowerGridGraph) (F : Forest) :
    consumerIds (initialize_capacities g F) = consumerIds g :=
  consumerIds_foldl_capacityStep (avgConsumersPerCluster g) F
    (List.reverse (preorderF F)) g

theorem consumerIds_nodup (g : PowerGridGraph)
    (hids : (g.nodes.map (fun nd => nd.id)).Nodup) :
    (consumerIds g).Nodup := by
  unfold consumerIds
  exact hids.sublist ((List.filter_sublist _).map _)

theorem find?_map_pair (h : String → List IoTDevice) :
    ∀ (L : List String) (cid : String), cid ∈ L →
      (L.map (fun c => (c, h c))).find? (fun pr => pr.1 = cid) = some (cid, h cid) := by
  intro L
  induction L with
  | nil => intro cid hc; cases hc
  | cons a L ih =>
    intro cid hc
    by_cases hac : a = cid
    · subst hac
      simp only [List.map_cons]
      rw [List.find?_cons_of_pos _ (by simp)]
    · have hc' : cid ∈ L := by
        rcases List.mem_cons.mp hc with rfl | hmem
        · exact absurd rfl hac
        · exact hmem
      simp only [List.map_cons]
      rw [List.find?_cons_of_neg _ (by simp [hac])]
      exact ih cid hc'

/-- The backend state right after device seeding, before the per-consumer
load/capacity updates of `_init_default_devices`. -/
def initDevState (s : BackendState) : BackendState :=
  { s with
    graph := initialize_capacities s.graph s.forest,
    devices := build_device_simulation_state (initialize_capacities s.graph s.forest) }

/-- C2: after the facade's initialization (`initialize_capacities`
followed by `_init_default_devices`), every ConsumerPoint of a
duplicate-free graph has a non-null capacity determined by its device
load — 13.0 when the total average device power is ≤ 13.0, else 25.0
(13.0 under the default TV+Fridge seeding). -/
theorem consumer_capacity_after_init (s : BackendState)
    (hids : (s.graph.nodes.map (fun nd => nd.id)).Nodup)
    (cid : String) (node : Node)
    (hget : s.graph.get_node cid = some node)
    (hty : node.node_type = NodeType.consumerPoint) :
    ∃ node', (backendInit s).graph.get_node cid = some node' ∧
      node'.node_type = NodeType.consumerPoint ∧
      node'.capacity
        = some (consumerTierCapacity (devicesAvgSum (devsOf (backendInit s) cid))) ∧
      node'.capacity ≠ none ∧
      (node'.capacity = some 13 ∨ node'.capacity = some 25) := by
  have hCinv : consumerIds (initialize_capacities s.graph s.forest)
      = consumerIds s.graph := consumerIds_initialize s.graph s.forest
  have hmemC0 : cid ∈ consumerIds s.graph := by
    unfold consumerIds
    exact List.mem_map.mpr ⟨node,
      List.mem_filter.mpr ⟨List.mem_of_find?_eq_some hget, by simp [hty]⟩,
      get_node_id hget⟩
  have hmemC : cid ∈ consumerIds (initialize_capacities s.graph s.forest) := by
    rw [hCinv]; exact hmemC0
  have hndC : (consumerIds (initialize_capacities s.graph s.forest)).Nodup := by
    rw [hCinv]; exact consumerIds_nodup s.graph hids
  have hfold : backendInit s
      = (consumerIds (initialize_capacities s.graph s.forest)).foldl
          update_load_after_device_change (initDevState s) := rfl
  have hidt : idTypeView (initialize_capacities s.graph s.forest) cid
      = some (cid, NodeType.consumerPoint) := by
    rw [initialize_capacities_idTypeView]
    unfold idTypeView
    rw [hget]
    simp [get_node_id hget, hty]
  obtain ⟨node₁, hn₁⟩ :
      ∃ nd, (initialize_capacities s.graph s.forest).get_node cid = some nd := by
    cases hg : (initialize_capacities s.graph s.forest).get_node cid with
    | none =>
      unfold idTypeView at hidt
      rw [hg] at hidt
      cases hidt
    | some nd => exact ⟨nd, rfl⟩
  have hdev1 : devsOf (initDevState s) cid = buildDevices cid defaultDeviceTypes := by
    simp only [devsOf, initDevState, build_device_simulation_state]
    rw [find?_map_pair _ (consumerIds (initialize_capacities s.graph s.forest))
      cid hmemC]
    rfl
  have hcap1 : capView (initDevState s).graph cid = some node₁.capacity := by
    show capView (initialize_capacities s.graph s.forest) cid = _
    unfold capView
    rw [hn₁]
    rfl
  have hcap2 : capView ((consumerIds (initialize_capacities s.graph s.forest)).foldl
        update_load_after_device_change (initDevState s)).graph cid
      = some (some (consumerTierCapacity (devicesAvgSum (devsOf (initDevState s) cid)))) := by
    rw [foldl_update_capView_mem _ _ hndC cid hmemC, hcap1]
    rfl
  rw [hfold]
  cases hgf : ((consumerIds (initialize_capacities s.graph s.forest)).foldl
      update_load_after_device_change (initDevState s)).graph.get_node cid with
  | none =>
    unfold capView at hcap2
    rw [hgf] at hcap2
    cases hcap2
  | some node' =>
    have hcapn : node'.capacity
        = some (consumerTierCapacity (devicesAvgSum (devsOf (initDevState s) cid))) := by
      unfold capView at hcap2
      rw [hgf] at hcap2
      simpa using hcap2
    have hs1idt : idTypeView (initDevState s).graph cid
        = some (cid, NodeType.consumerPoint) := by
      show idTypeView (initialize_capacities s.graph s.forest) cid = _
      exact hidt
    have hidt2 : node'.node_type = NodeType.consumerPoint := by
      have h := (foldl_update_idTypeView
        (consumerIds (initialize_capacities s.graph s.forest)) (initDevState s) cid).trans hs1idt
      unfold idTypeView at h
      rw [hgf] at h
      exact (Prod.mk.injEq .. ▸ (by simpa using h : (node'.id, node'.node_type)
        = (cid, NodeType.consumerPoint))).2
    have hdevs : devsOf ((consumerIds (initialize_capacities s.graph s.forest)).foldl
          update_load_after_device_change (initDevState s)) cid
        = devsOf (initDevState s) cid := by
      unfold devsOf
      rw [foldl_update_devices]
    have havg : devicesAvgSum (devsOf (initDevState s) cid) = 0.195 := by
      rw [hdev1]
      norm_num [buildDevices, buildDevicesAux, defaultDeviceTypes,
        defaultDeviceFor, deviceTemplate, devicesAvgSum]
    have htier : consumerTierCapacity (devicesAvgSum (devsOf (initDevState s) cid)) = 13 := by
      rw [havg]
      norm_num [consumerTierCapacity]
    refine ⟨node', rfl, hidt2, ?_, ?_, ?_⟩
    · rw [hcapn, hdevs]
    · rw [hcapn]
      simp
    · left
      rw [hcapn, htier]

/-- Witness for C2 at the concrete example state and consumer c1. -/
theorem consumer_capacity_after_init_witness :
    (exStateC1.graph.nodes.map (fun nd => nd.id)).Nodup ∧
    (∃ node', (backendInit exStateC1).graph.get_node "c1" = some node' ∧
      node'.node_type = NodeType.consumerPoint ∧
      node'.capacity
        = some (consumerTierCapacity (devicesAvgSum (devsOf (backendInit exStateC1) "c1"))) ∧
      node'.capacity ≠ none ∧
      (node'.capacity = some 13 ∨ node'.capacity = some 25)) :=
  ⟨by decide,
   consumer_capacity_after_init exStateC1 (by decide) "c1"
     (exNode "c1" NodeType.consumerPoint) (by decide) (by decide)⟩

end EcoGrid
